import Mathlib

/-!
Verification of the subtitle locale rewriting engine of media-library-witch
(src/src/main.py), as a shallow embedding in Lean.

The embedded parts are the `SubtitleLocaleFixer` class: its `Rule` record,
the `Rule.from_csv` loader and the `fix_name` rewriting algorithm.  File
input is abstracted: `from_csv` here receives the sequence of row
dictionaries that `csv.DictReader` yields (each an association list from
column name to cell value, restricted to well-formed rows whose cells are
strings).  Python string lowering is modelled by ASCII lowering, which
agrees with `str.lower` on all ASCII input.
-/

/-- A substitution rule: `SubtitleLocaleFixer.Rule` (main.py lines 12 to 15),
a named triple of source tag, target tag and a case sensitivity flag. -/
structure Rule where
  source : String
  target : String
  case_sensitive : Bool
deriving DecidableEq, Repr

/-- ASCII lowering of one character, as `Char.toLower` does: letters A to Z
map to a to z, everything else is unchanged.  Agrees with Python `str.lower`
on ASCII characters. -/
def lowerChar (c : Char) : Char := Char.toLower c

/-- Python `s.lower()`, modelled on ASCII: lower every character. -/
def pyLower (s : String) : String := String.mk (s.toList.map lowerChar)

/-- The rule match condition of the loop in `fix_name` (main.py lines 45-46):
`(case_sensitive and lang == src) or (not case_sensitive and lang.lower() == src.lower())`. -/
def ruleMatches (lang : String) (r : Rule) : Bool :=
  (r.case_sensitive && lang == r.source)
    || (!r.case_sensitive && pyLower lang == pyLower r.source)

/-- Split a character list at every occurrence of the dot character,
the semantics of Python `split(".")` with no count limit. -/
def splitOnDot : List Char → List (List Char)
  | [] => [[]]
  | c :: cs =>
    if c = '.' then [] :: splitOnDot cs
    else
      match splitOnDot cs with
      | [] => [[c]]
      | p :: ps => (c :: p) :: ps

/-- Join string parts with a dot between consecutive parts, the semantics of
Python `".".join(parts)`. -/
def joinDot : List String → String
  | [] => ""
  | [s] => s
  | s :: ss => s ++ "." ++ joinDot ss

/-- Python `filename.rsplit(".", 2)` (main.py line 34): split from the right
on the dot, at most twice, so the result has at most three parts; when the
string holds more than two dots, everything left of the last two dots stays
joined as the first part. -/
def rsplit2 (s : String) : List String :=
  let ps := (splitOnDot s.toList).map String.mk
  if ps.length ≤ 3 then ps
  else joinDot (ps.take (ps.length - 2)) :: ps.drop (ps.length - 2)

/-- The state of a `SubtitleLocaleFixer` (main.py lines 29-31): an ordered
rule list and an optional default locale. -/
structure Fixer where
  rules : List Rule
  default_locale : Option String
deriving DecidableEq, Repr

/-- `SubtitleLocaleFixer.fix_name` (main.py lines 33-52).
Three parts: `(name, lang, ext)`; since `lang` is not `None` there, the
trailing default locale check `if self.default_locale and lang is None`
never fires in that branch, so a tagged name with no matching rule comes
back unchanged.  The rule scan runs only under Python truthiness `if lang:`,
so an empty tag skips it.  Two parts: `(name, ext)` with `lang = None`; the
default locale is appended only when it is truthy, so a configured empty
string behaves as no default locale.  One part: returned unchanged. -/
def fix_name (f : Fixer) (filename : String) : String :=
  match rsplit2 filename with
  | [name, lang, ext] =>
    if lang ≠ "" then
      match f.rules.find? (ruleMatches lang) with
      | some r => name ++ "." ++ r.target ++ "." ++ ext
      | none => filename
    else filename
  | [name, ext] =>
    match f.default_locale with
    | some d => if d ≠ "" then name ++ "." ++ d ++ "." ++ ext else filename
    | none => filename
  | _ => filename

/-- One row as produced by `csv.DictReader`: an association list from column
name to cell value, in column order. -/
def Row : Type := List (String × String)

/-- Python `row[k]` lookup result: `some v` when the key is present. -/
def rowLookup (row : Row) (k : String) : Option String :=
  (row.find? (fun p => p.1 == k)).map (fun p => p.2)

/-- The Python exceptions `Rule.from_csv` can raise in this model: a
`KeyError` from `row["source"]` or `row["target"]` when the column is
absent. -/
inductive PyError where
  | keyError (k : String)
deriving DecidableEq, Repr

/-- The loop body of `Rule.from_csv` (main.py lines 22-26) on one row:
`row["source"]` and `row["target"]` raise `KeyError` when the key is absent;
`row.get("is_case_sensitive", "false").lower() == "true"` parses the flag. -/
def ruleOfRow (row : Row) : Except PyError Rule :=
  match rowLookup row "source" with
  | none => Except.error (PyError.keyError "source")
  | some src =>
    match rowLookup row "target" with
    | none => Except.error (PyError.keyError "target")
    | some tgt =>
      Except.ok
        { source := src
          target := tgt
          case_sensitive :=
            pyLower ((rowLookup row "is_case_sensitive").getD "false") == "true" }

/-- The local variable `rules` of `Rule.from_csv` as it stands after the
loop (main.py lines 19-26): the rows converted in order, aborting at the
first raising row.  This is the list the function builds but never
returns. -/
def from_csv_rules : List Row → Except PyError (List Rule)
  | [] => Except.ok []
  | row :: rest =>
    match ruleOfRow row with
    | Except.error e => Except.error e
    | Except.ok r =>
      match from_csv_rules rest with
      | Except.error e => Except.error e
      | Except.ok rs => Except.ok (r :: rs)

/-- `SubtitleLocaleFixer.Rule.from_csv` (main.py lines 17-26) as written:
the body accumulates `rules` but holds no return statement, so on success
the function returns Python `None` (here `Option.none`), despite its
annotation `-> list[Self]`. -/
def from_csv (rows : List Row) : Except PyError (Option (List Rule)) :=
  match from_csv_rules rows with
  | Except.error e => Except.error e
  | Except.ok _ => Except.ok none

/-- The matching notion as the claims state it: exact string equality when
the rule is case sensitive, case insensitive equality otherwise. -/
def specMatches (lang : String) (r : Rule) : Bool :=
  if r.case_sensitive then lang == r.source else pyLower lang == pyLower r.source

/-- The matching notion of the claims coincides with the loop condition in
the code. -/
theorem specMatches_eq_ruleMatches (lang : String) : specMatches lang = ruleMatches lang := by
  funext r
  obtain ⟨s, t, cs⟩ := r
  cases cs <;> simp [specMatches, ruleMatches]

/-- A scan skips a prefix on which the predicate is everywhere false. -/
theorem find?_append_of_forall_false {α : Type} (p : α → Bool) (l1 l2 : List α)
    (h : ∀ x ∈ l1, p x = false) : (l1 ++ l2).find? p = l2.find? p := by
  induction l1 with
  | nil => rfl
  | cons x xs ih =>
    rw [List.cons_append,
      List.find?_cons_of_neg _ (by simp [h x (List.mem_cons_self x xs)])]
    exact ih (fun y hy => h y (List.mem_cons_of_mem x hy))

/-- C1: for every filename that splits from the right on the dot into
exactly three parts (name, TAG, ext) with TAG non-empty, if some rule
matches TAG and the first such rule by insertion order is (src, tgt, cs) —
matching being exact equality of TAG and src when cs holds, case
insensitive equality otherwise — then fix_name returns
name + "." + tgt + "." + ext. -/
theorem c1_first_match_rewrites (f : Fixer) (filename name lang ext : String)
    (src tgt : String) (cs : Bool)
    (hsplit : rsplit2 filename = [name, lang, ext]) (hlang : lang ≠ "")
    (hfind : f.rules.find? (specMatches lang) = some ⟨src, tgt, cs⟩) :
    fix_name f filename = name ++ "." ++ tgt ++ "." ++ ext := by
  rw [specMatches_eq_ruleMatches] at hfind
  simp [fix_name, hsplit, hlang, hfind]

/-- Witness for C1 at rules [("eng", "en", false)] and "Show.ENG.srt". -/
theorem c1_witness :
    fix_name ⟨[⟨"eng", "en", false⟩], none⟩ "Show.ENG.srt"
      = "Show" ++ "." ++ "en" ++ "." ++ "srt" :=
  c1_first_match_rewrites ⟨[⟨"eng", "en", false⟩], none⟩ "Show.ENG.srt"
    "Show" "ENG" "srt" "eng" "en" false rfl (by decide) rfl

/-- C2: for every filename that splits into three parts (name, TAG, ext)
where TAG matches no rule, fix_name returns the input unchanged, whatever
the default locale configuration is. -/
theorem c2_unmatched_tag_unchanged (f : Fixer) (filename name lang ext : String)
    (hsplit : rsplit2 filename = [name, lang, ext])
    (hnomatch : ∀ r ∈ f.rules, specMatches lang r = false) :
    fix_name f filename = filename := by
  simp only [specMatches_eq_ruleMatches] at hnomatch
  have hfind : f.rules.find? (ruleMatches lang) = none :=
    List.find?_eq_none.mpr (fun r hr => by simp [hnomatch r hr])
  by_cases hlang : lang = ""
  · simp [fix_name, hsplit, hlang]
  · simp [fix_name, hsplit, hlang, hfind]

/-- Witness for C2 at rules [("eng", "en", true)], default locale "en" and
"Show.ENG.srt": the tag ENG matches no rule case sensitively, and the
default locale is not applied. -/
theorem c2_witness :
    fix_name ⟨[⟨"eng", "en", true⟩], some "en"⟩ "Show.ENG.srt" = "Show.ENG.srt" :=
  c2_unmatched_tag_unchanged ⟨[⟨"eng", "en", true⟩], some "en"⟩ "Show.ENG.srt"
    "Show" "ENG" "srt" rfl (by decide)

/-- C3: for every filename that splits into exactly two parts (name, ext),
when a default locale D is configured, fix_name returns
name + "." + D + "." + ext.  A configured default locale is a non-empty
one: the code gates on Python truthiness, and the claim set itself states
that an empty default locale behaves as no default locale at all. -/
theorem c3_default_locale_appended (f : Fixer) (filename name ext D : String)
    (hsplit : rsplit2 filename = [name, ext])
    (hD : f.default_locale = some D) (hne : D ≠ "") :
    fix_name f filename = name ++ "." ++ D ++ "." ++ ext := by
  simp [fix_name, hsplit, hD, hne]

/-- Witness for C3 at empty rules, default locale "en" and "Show.srt". -/
theorem c3_witness :
    fix_name ⟨[], some "en"⟩ "Show.srt" = "Show" ++ "." ++ "en" ++ "." ++ "srt" :=
  c3_default_locale_appended ⟨[], some "en"⟩ "Show.srt" "Show" "srt" "en"
    rfl rfl (by decide)

/-- C9: for every filename whose right split into three parts has an empty
middle component, fix_name returns the input unchanged for every fixer:
the rule scan is skipped (even a rule with empty source cannot match) and
the default locale is not appended even when configured. -/
theorem c9_empty_tag_unchanged (f : Fixer) (filename name ext : String)
    (hsplit : rsplit2 filename = [name, "", ext]) :
    fix_name f filename = filename := by
  simp [fix_name, hsplit]

/-- Witness for C9 at "name..ext" with a rule whose source is empty and a
configured default locale. -/
theorem c9_witness :
    fix_name ⟨[⟨"", "xx", true⟩], some "en"⟩ "name..ext" = "name..ext" :=
  c9_empty_tag_unchanged ⟨[⟨"", "xx", true⟩], some "en"⟩ "name..ext"
    "name" "ext" rfl

/-- C10: an empty default locale behaves as no default locale: for every
filename splitting into two parts, when default_locale is the empty
string, fix_name returns the input unchanged rather than inserting an
empty component. -/
theorem c10_empty_default_unchanged (f : Fixer) (filename name ext : String)
    (hd : f.default_locale = some "")
    (hsplit : rsplit2 filename = [name, ext]) :
    fix_name f filename = filename := by
  simp [fix_name, hsplit, hd]

/-- Witness for C10 at "Show.srt" with an empty default locale. -/
theorem c10_witness :
    fix_name ⟨[], some ""⟩ "Show.srt" = "Show.srt" :=
  c10_empty_default_unchanged ⟨[], some ""⟩ "Show.srt" "Show" "srt" rfl rfl

/-- C4: the claim says Rule.from_csv returns the rule list in row order with
the stated flag parsing.  The flag parsing and the row order are as claimed
in the list the loop builds, but the function body has no return statement,
so from_csv returns Python None instead of that list — contradicting its own
annotation `-> list[Self]` and its caller in main, which extends a list with
the result.  Evaluated here on a two row table: the internal list is exactly
as the claim describes, while the function itself yields None. -/
theorem c4_from_csv_returns_none :
    from_csv
        [[("source", "eng"), ("target", "en")],
         [("source", "fra"), ("target", "fr"), ("is_case_sensitive", "TRUE")],
         [("source", "ger"), ("target", "de"), ("is_case_sensitive", "yes")]]
      = Except.ok none
    ∧ from_csv_rules
        [[("source", "eng"), ("target", "en")],
         [("source", "fra"), ("target", "fr"), ("is_case_sensitive", "TRUE")],
         [("source", "ger"), ("target", "de"), ("is_case_sensitive", "yes")]]
      = Except.ok [⟨"eng", "en", false⟩, ⟨"fra", "fr", true⟩, ⟨"ger", "de", false⟩] :=
  ⟨rfl, rfl⟩

/-- C5 counterexample: a row with an empty source field does not fail at
all — no MalformedRuleError exists in the code.  The load succeeds (with
the missing-return value None) and the internal list holds a rule whose
source is the empty string. -/
theorem c5_counterexample :
    from_csv [[("source", ""), ("target", "x")]] = Except.ok none
    ∧ from_csv_rules [[("source", ""), ("target", "x")]]
      = Except.ok [⟨"", "x", false⟩] :=
  ⟨rfl, rfl⟩

/-- C5 amended: a row whose source or target KEY is absent aborts the whole
load with a KeyError naming the missing key, while a row whose source or
target value is present but EMPTY is accepted without any error and
contributes a rule with that empty field; the code defines no
MalformedRuleError. -/
theorem c5_missing_key_aborts (row : Row) (rest : List Row) :
    (rowLookup row "source" = none →
      from_csv (row :: rest) = Except.error (PyError.keyError "source"))
    ∧ (∀ s, rowLookup row "source" = some s → rowLookup row "target" = none →
      from_csv (row :: rest) = Except.error (PyError.keyError "target"))
    ∧ ruleOfRow [("source", ""), ("target", "")] = Except.ok ⟨"", "", false⟩ := by
  refine ⟨fun h => ?_, fun s hs h => ?_, rfl⟩
  · simp [from_csv, from_csv_rules, ruleOfRow, h]
  · simp [from_csv, from_csv_rules, ruleOfRow, hs, h]

/-- Witness for C5 amended: a table whose only row lacks the source column
aborts with KeyError "source". -/
theorem c5_witness :
    from_csv [[("target", "x")]] = Except.error (PyError.keyError "source") :=
  (c5_missing_key_aborts [("target", "x")] []).1 rfl

/-- C6: matching honours the case sensitivity flag.  A case sensitive rule
matches exactly when the tag equals its source; a case insensitive rule
matches exactly when the lowered tag equals the lowered source.  In
particular rule ("EN", "eng", true) does not match tag "en" (the filename
stays unchanged), while rule ("en", "eng", false) matches tag "EN" (the
filename is rewritten). -/
theorem c6_case_sensitivity (lang : String) (r : Rule) :
    (r.case_sensitive = true → (ruleMatches lang r = true ↔ lang = r.source))
    ∧ (r.case_sensitive = false →
        (ruleMatches lang r = true ↔ pyLower lang = pyLower r.source))
    ∧ ruleMatches "en" ⟨"EN", "eng", true⟩ = false
    ∧ ruleMatches "EN" ⟨"en", "eng", false⟩ = true
    ∧ fix_name ⟨[⟨"EN", "eng", true⟩], none⟩ "Show.en.srt" = "Show.en.srt"
    ∧ fix_name ⟨[⟨"en", "eng", false⟩], none⟩ "Show.EN.srt" = "Show.eng.srt" := by
  obtain ⟨s, t, cs⟩ := r
  refine ⟨fun h => ?_, fun h => ?_, rfl, rfl, rfl, rfl⟩ <;>
    subst h <;> simp [ruleMatches]

/-- Witness for C6: the case sensitive branch instantiated at tag "EN" and
rule ("EN", "eng", true). -/
theorem c6_witness :
    ruleMatches "EN" ⟨"EN", "eng", true⟩ = true ↔ "EN" = "EN" :=
  (c6_case_sensitivity "EN" ⟨"EN", "eng", true⟩).1 rfl

/-- C7: rule resolution is first match by insertion order.  When the rules
are pre ++ r1 :: mid ++ r2 :: post, nothing in pre matches the tag, and
both r1 and r2 match it with different targets, fix_name rewrites with the
target of r1, the earlier inserted rule; r2 is never consulted. -/
theorem c7_first_match_precedence (f : Fixer) (filename name lang ext : String)
    (pre mid post : List Rule) (r1 r2 : Rule)
    (hrules : f.rules = pre ++ (r1 :: mid ++ r2 :: post))
    (hsplit : rsplit2 filename = [name, lang, ext]) (hlang : lang ≠ "")
    (hpre : ∀ r ∈ pre, specMatches lang r = false)
    (h1 : specMatches lang r1 = true) (h2 : specMatches lang r2 = true)
    (hne : r1.target ≠ r2.target) :
    fix_name f filename = name ++ "." ++ r1.target ++ "." ++ ext := by
  simp only [specMatches_eq_ruleMatches] at hpre h1 h2
  have hfind : f.rules.find? (ruleMatches lang) = some r1 := by
    rw [hrules, find?_append_of_forall_false _ pre _ hpre]
    exact List.find?_cons_of_pos _ h1
  simp [fix_name, hsplit, hlang, hfind]

/-- Witness for C7: rules [("xx", "a", false), ("en", "first", false),
("EN", "second", true)] on "Show.EN.srt" rewrite with the earlier matching
target "first", not "second". -/
theorem c7_witness :
    fix_name ⟨[⟨"xx", "a", false⟩, ⟨"en", "first", false⟩, ⟨"EN", "second", true⟩],
        none⟩ "Show.EN.srt"
      = "Show" ++ "." ++ "first" ++ "." ++ "srt" :=
  c7_first_match_precedence
    ⟨[⟨"xx", "a", false⟩, ⟨"en", "first", false⟩, ⟨"EN", "second", true⟩], none⟩
    "Show.EN.srt" "Show" "EN" "srt"
    [⟨"xx", "a", false⟩] [] [] ⟨"en", "first", false⟩ ⟨"EN", "second", true⟩
    rfl rfl (by decide) (by decide) (by decide) (by decide) (by decide)

/-- C8: fix_name returns the input unchanged in every fall through case:
a filename holding no dot (fewer than two split parts), and a two part
filename when no default locale is configured. -/
theorem c8_fallthrough_unchanged (f : Fixer) (filename : String) :
    ((rsplit2 filename).length = 1 → fix_name f filename = filename)
    ∧ (∀ name ext, rsplit2 filename = [name, ext] → f.default_locale = none →
        fix_name f filename = filename) := by
  constructor
  · intro h
    obtain ⟨x, hx⟩ : ∃ x, rsplit2 filename = [x] := by
      match hr : rsplit2 filename with
      | [] => rw [hr] at h; simp at h
      | [x] => exact ⟨x, rfl⟩
      | _ :: _ :: _ => rw [hr] at h; simp at h
    simp [fix_name, hx]
  · intro name ext hsplit hd
    simp [fix_name, hsplit, hd]

/-- Witness for C8: "README" has no dot and stays unchanged; "Show.srt"
with no default locale stays unchanged. -/
theorem c8_witness :
    fix_name ⟨[⟨"eng", "en", false⟩], none⟩ "README" = "README"
    ∧ fix_name ⟨[⟨"eng", "en", false⟩], none⟩ "Show.srt" = "Show.srt" :=
  ⟨(c8_fallthrough_unchanged ⟨[⟨"eng", "en", false⟩], none⟩ "README").1 rfl,
   (c8_fallthrough_unchanged ⟨[⟨"eng", "en", false⟩], none⟩ "Show.srt").2
     "Show" "srt" rfl rfl⟩

/-- Sanity facts about the split: the concrete filename shapes of the spec
reduce as Python rsplit does, including the more-than-two-dots case where
the left parts stay joined. -/
theorem rsplit2_examples :
    rsplit2 "Show.ENG.srt" = ["Show", "ENG", "srt"]
    ∧ rsplit2 "a.b.c.d" = ["a.b", "c", "d"]
    ∧ rsplit2 "README" = ["README"]
    ∧ rsplit2 "Show.srt" = ["Show", "srt"]
    ∧ rsplit2 "name..ext" = ["name", "", "ext"] :=
  ⟨rfl, rfl, rfl, rfl, rfl⟩
